import Mathlib

/-!
Shallow embedding of the protocol-v1 framing library (`src/lib.rs`).

Bytes are modelled as `Nat` values; the `u8` typing of the Rust source is
expressed where it matters by hypotheses `b < 256`.  Operations that can
panic in Rust (`panic!`, out-of-bounds slicing, `try_into().unwrap()`) are
modelled by an outer `Option`: `none` is a panic, `some r` is the value the
Rust function returns.  Strings are modelled by their UTF-8 byte lists.
-/

namespace Protocol

/-- The error enum `PacketError` of `src/lib.rs`. -/
inductive PacketError where
  | InvalidPacket
  | InvalidChecksum
  | UnknownProtocolVersion
  | CorruptedMessage
deriving Repr, DecidableEq

/-- The struct `Packet`; `payload` is the borrowed byte slice, `checksum`
the four checksum bytes. -/
structure Packet where
  version : Nat
  size : Nat
  payload : List Nat
  checksum : List Nat
deriving Repr, DecidableEq

/-- Rust's `usize -> u8` conversion `try_into()`: `none` models the
`unwrap()` panic on values above 255. -/
def toU8? (n : Nat) : Option Nat :=
  if n ≤ 255 then some n else none

/-- Rust slice indexing `&l[a..b]`: `none` models the out-of-bounds panic. -/
def slice? (l : List Nat) (a b : Nat) : Option (List Nat) :=
  if a ≤ b ∧ b ≤ l.length then some ((l.drop a).take (b - a)) else none

/-- Rust slice indexing `&l[a..]`: `none` models the out-of-bounds panic. -/
def sliceFrom? (l : List Nat) (a : Nat) : Option (List Nat) :=
  if a ≤ l.length then some (l.drop a) else none

/-- The four big-endian bytes of a `u32` value, `u32::to_be_bytes`. -/
def beBytes32 (s : Nat) : List Nat :=
  let t := s % 2 ^ 32
  [t / 2 ^ 24 % 256, t / 2 ^ 16 % 256, t / 2 ^ 8 % 256, t % 256]

/-- `Packet::find_checksum`: the big-endian bytes of the wrapping `u32`
sum of the payload bytes. -/
def find_checksum (payload : List Nat) : List Nat :=
  beBytes32 payload.sum

/-- `Packet::from_source`.  `none` models the `panic!()` on `size == 0`
and the (unreachable for `size ≤ 255`) `try_into().unwrap()` panic. -/
def from_source (source : List Nat) (size : Nat) : Option (Packet × List Nat) :=
  if size = 0 then none
  else
    let source_length := source.length
    let parsed_size := size
    if source_length > parsed_size then
      let payload := source.take parsed_size
      let remainder := source.drop parsed_size
      match toU8? parsed_size with
      | some sz => some (⟨1, sz, payload, find_checksum payload⟩, remainder)
      | none => none
    else
      -- `payload = source`, `remainder = &[]`, `parsed_size = source_length`
      match toU8? source_length with
      | some sz => some (⟨1, sz, source, find_checksum source⟩, [])
      | none => none

/-- `Packet::payload`. -/
def Packet.payloadOf (p : Packet) : List Nat :=
  p.payload

/-- `Packet::serialize`: version byte, size byte, payload, checksum. -/
def Packet.serialize (p : Packet) : List Nat :=
  [p.version, p.size] ++ p.payload ++ p.checksum

/-- `Packet::deserialize`.  The outer `Option` models panics (all of which
are unreachable: the guards keep every slice access in bounds). -/
def deserialize (bytes : List Nat) : Option (Except PacketError (Packet × List Nat)) :=
  let byte_count := bytes.length
  if byte_count < 6 then some (Except.error PacketError.InvalidPacket) else
  match bytes.get? 0 with
  | none => none
  | some b0 =>
  if b0 ≠ 1 then some (Except.error PacketError.UnknownProtocolVersion) else
  match bytes.get? 1 with
  | none => none
  | some size =>
  if size > byte_count - 6 then some (Except.error PacketError.InvalidPacket) else
  match slice? bytes 2 (size + 2), slice? bytes (size + 2) (size + 6) with
  | some payload, some checksum_to_check =>
    let checksum := find_checksum payload
    if checksum ≠ checksum_to_check then some (Except.error PacketError.InvalidChecksum) else
    (match sliceFrom? bytes (size + 6), toU8? size with
     | some remainder, some sz => some (Except.ok (⟨1, sz, payload, checksum⟩, remainder))
     | _, _ => none)
  | _, _ => none

/-- The struct `PacketSerializer`. -/
structure PacketSerializer where
  packet_size : Nat
  remaining_bytes : List Nat
deriving Repr, DecidableEq

/-- One step of `Iterator::next` for `PacketSerializer`.  `some none` is
Rust's `None` (iteration over), `some (some (p, s'))` yields a packet and
the advanced iterator, `none` models a panic inside `from_source`. -/
def PacketSerializer.next (s : PacketSerializer) :
    Option (Option (Packet × PacketSerializer)) :=
  if s.remaining_bytes.length = 0 then some none
  else
    match from_source s.remaining_bytes s.packet_size with
    | some (packet, remainder) => some (some (packet, ⟨s.packet_size, remainder⟩))
    | none => none

/-- `Packetable::to_packets` for `String` (the string as its bytes). -/
def to_packets (stringAsBytes : List Nat) (packet_size : Nat) : PacketSerializer :=
  ⟨packet_size, stringAsBytes⟩

/-- Draining the iterator into the list of yielded packets.  `fuel` bounds
the number of steps; with `fuel ≥` the byte length and a non-zero chunk
size it is never exhausted. -/
def collectPackets : Nat → PacketSerializer → Option (List Packet)
  | fuel, s =>
    match s.next with
    | some none => some []
    | none => none
    | some (some (p, s')) =>
      match fuel with
      | 0 => none
      | f + 1 => (collectPackets f s').map (fun ps => p :: ps)

/-- `Packetable::to_packet_data` for `String`: drain `to_packets` and
concatenate each packet's `serialize()` output. -/
def to_packet_data (stringAsBytes : List Nat) (packet_size : Nat) : Option (List Nat) :=
  (collectPackets stringAsBytes.length (to_packets stringAsBytes packet_size)).map
    (fun ps => (ps.map Packet.serialize).flatten)

/-- Whether a byte is a UTF-8 continuation byte `0x80..=0xBF`. -/
def isCont (b : Nat) : Bool :=
  128 ≤ b && b ≤ 191

/-- UTF-8 validity of a byte list, as checked by `std::str::from_utf8`
(RFC 3629: no surrogates, no overlong forms, ≤ U+10FFFF). -/
def isValidUtf8 : List Nat → Bool
  | [] => true
  | b :: rest =>
    if b ≤ 127 then isValidUtf8 rest
    else if 194 ≤ b && b ≤ 223 then
      match rest with
      | c1 :: rest' => isCont c1 && isValidUtf8 rest'
      | [] => false
    else if b = 224 then
      match rest with
      | c1 :: c2 :: rest' => (160 ≤ c1 && c1 ≤ 191) && isCont c2 && isValidUtf8 rest'
      | _ => false
    else if (225 ≤ b && b ≤ 236) || b = 238 || b = 239 then
      match rest with
      | c1 :: c2 :: rest' => isCont c1 && isCont c2 && isValidUtf8 rest'
      | _ => false
    else if b = 237 then
      match rest with
      | c1 :: c2 :: rest' => (128 ≤ c1 && c1 ≤ 159) && isCont c2 && isValidUtf8 rest'
      | _ => false
    else if b = 240 then
      match rest with
      | c1 :: c2 :: c3 :: rest' =>
        (144 ≤ c1 && c1 ≤ 191) && isCont c2 && isCont c3 && isValidUtf8 rest'
      | _ => false
    else if 241 ≤ b && b ≤ 243 then
      match rest with
      | c1 :: c2 :: c3 :: rest' => isCont c1 && isCont c2 && isCont c3 && isValidUtf8 rest'
      | _ => false
    else if b = 244 then
      match rest with
      | c1 :: c2 :: c3 :: rest' =>
        (128 ≤ c1 && c1 ≤ 143) && isCont c2 && isCont c3 && isValidUtf8 rest'
      | _ => false
    else false

/-- The loop of `Packetable::from_packet_data` for `String`: repeatedly
`deserialize` the front of the remaining data, parse the payload as UTF-8
(`std::str::from_utf8(...)?`, whose `Utf8Error` converts to
`CorruptedMessage`), and append it to the accumulated content.  `fuel`
bounds the iteration count; each successful step consumes at least six
bytes, so `fuel ≥` the data length is always enough. -/
def from_packet_data_loop : Nat → List Nat → List Nat →
    Option (Except PacketError (List Nat))
  | _, [], content => some (Except.ok content)
  | 0, _ :: _, _ => none
  | fuel + 1, remaining@(_ :: _), content =>
    match deserialize remaining with
    | none => none
    | some (Except.error e) => some (Except.error e)
    | some (Except.ok (packet, remainder)) =>
      if isValidUtf8 packet.payload then
        from_packet_data_loop fuel remainder (content ++ packet.payload)
      else
        some (Except.error PacketError.CorruptedMessage)

/-- `Packetable::from_packet_data` for `String`; the result, when `Ok`,
is the accumulated string as its bytes. -/
def from_packet_data (packet_data : List Nat) : Option (Except PacketError (List Nat)) :=
  from_packet_data_loop packet_data.length packet_data []

/-! ### Characterization lemmas -/

theorem length_find_checksum (pl : List Nat) : (find_checksum pl).length = 4 := rfl

/-- Closed form of `from_source` for a legal (`u8`, non-zero) chunk size. -/
theorem from_source_eq (source : List Nat) (size : Nat) (h0 : size ≠ 0) (h255 : size ≤ 255) :
    from_source source size =
      some (⟨1, min size source.length, source.take size,
        find_checksum (source.take size)⟩, source.drop size) := by
  simp only [from_source, toU8?]
  rw [if_neg h0]
  by_cases h : source.length > size
  · rw [if_pos h, if_pos h255]
    have hmin : min size source.length = size := by omega
    rw [hmin]
  · rw [if_neg h]
    push_neg at h
    rw [if_pos (le_trans h h255)]
    have h1 : source.take size = source := List.take_of_length_le h
    have h2 : source.drop size = [] := List.drop_eq_nil_of_le h
    have h3 : min size source.length = source.length := by omega
    rw [h1, h2, h3]

/-- `deserialize` on fewer than six bytes. -/
theorem deserialize_short (bytes : List Nat) (h : bytes.length < 6) :
    deserialize bytes = some (Except.error PacketError.InvalidPacket) := by
  simp only [deserialize]
  rw [if_pos h]

/-- `deserialize` when the version byte is not 1: the check fires before
any size or checksum validation. -/
theorem deserialize_bad_version (bytes : List Nat) (b0 : Nat)
    (h6 : 6 ≤ bytes.length) (h0 : bytes.get? 0 = some b0) (hb0 : b0 ≠ 1) :
    deserialize bytes = some (Except.error PacketError.UnknownProtocolVersion) := by
  simp only [deserialize]
  rw [if_neg (by omega), h0]
  simp only [hb0, if_pos, ne_eq, not_false_eq_true, if_true]

/-- `deserialize` when the declared size overruns the available bytes. -/
theorem deserialize_oversize (bytes : List Nat) (s : Nat)
    (h6 : 6 ≤ bytes.length) (h0 : bytes.get? 0 = some 1) (h1 : bytes.get? 1 = some s)
    (hs : bytes.length - 6 < s) :
    deserialize bytes = some (Except.error PacketError.InvalidPacket) := by
  simp only [deserialize]
  rw [if_neg (by omega), h0]
  simp only [ne_eq, not_true_eq_false, if_false, h1]
  rw [if_pos hs]

/-- `deserialize` past all structural guards: the result is decided by the
checksum comparison alone. -/
theorem deserialize_main (bytes : List Nat) (s : Nat)
    (h6 : 6 ≤ bytes.length) (h0 : bytes.get? 0 = some 1) (h1 : bytes.get? 1 = some s)
    (hs : s ≤ bytes.length - 6) (h255 : s ≤ 255) :
    deserialize bytes =
      if find_checksum ((bytes.drop 2).take s) = (bytes.drop (s + 2)).take 4
      then some (Except.ok
        (⟨1, s, (bytes.drop 2).take s, find_checksum ((bytes.drop 2).take s)⟩,
          bytes.drop (s + 6)))
      else some (Except.error PacketError.InvalidChecksum) := by
  simp only [deserialize]
  rw [if_neg (by omega), h0]
  simp only [ne_eq, not_true_eq_false, if_false, h1]
  rw [if_neg (by omega)]
  simp only [slice?, sliceFrom?, toU8?]
  rw [if_pos (by omega), if_pos (by omega), if_pos (by omega), if_pos h255]
  have e1 : s + 2 - 2 = s := by omega
  have e2 : s + 6 - (s + 2) = 4 := by omega
  rw [e1, e2]
  by_cases hck : find_checksum ((bytes.drop 2).take s) = (bytes.drop (s + 2)).take 4
  · simp [hck]
  · simp [hck]

/-- `deserialize` on a byte string shaped like a frame: version byte 1, a
size byte matching the length of the following payload block, four
checksum bytes, then arbitrary trailing bytes.  The structural guards all
pass and the checksum comparison decides the result. -/
theorem deserialize_frame (pl c4 rest : List Nat)
    (h255 : pl.length ≤ 255) (hc4 : c4.length = 4) :
    deserialize (1 :: pl.length :: (pl ++ c4 ++ rest)) =
      if find_checksum pl = c4
      then some (Except.ok (⟨1, pl.length, pl, find_checksum pl⟩, rest))
      else some (Except.error PacketError.InvalidChecksum) := by
  have hlen : (1 :: pl.length :: (pl ++ c4 ++ rest)).length
      = pl.length + rest.length + 6 := by
    simp [hc4]; omega
  have h0 : (1 :: pl.length :: (pl ++ c4 ++ rest)).get? 0 = some 1 := rfl
  have h1 : (1 :: pl.length :: (pl ++ c4 ++ rest)).get? 1 = some pl.length := rfl
  have hdrop2 : (1 :: pl.length :: (pl ++ c4 ++ rest)).drop 2 = pl ++ (c4 ++ rest) := by
    simp
  have htake : ((1 :: pl.length :: (pl ++ c4 ++ rest)).drop 2).take pl.length = pl := by
    rw [hdrop2, List.take_left]
  have hdropS : (1 :: pl.length :: (pl ++ c4 ++ rest)).drop (pl.length + 2)
      = c4 ++ rest := by
    have h2 : pl.length + 2 = pl.length + 1 + 1 := by omega
    rw [h2, List.drop_succ_cons, List.drop_succ_cons, List.append_assoc, List.drop_left]
  have htake4 : ((1 :: pl.length :: (pl ++ c4 ++ rest)).drop (pl.length + 2)).take 4
      = c4 := by
    rw [hdropS, ← hc4, List.take_left]
  have hdropE : (1 :: pl.length :: (pl ++ c4 ++ rest)).drop (pl.length + 6) = rest := by
    have h4 : (1 :: pl.length :: (pl ++ c4 ++ rest)).drop (pl.length + 6)
        = ((1 :: pl.length :: (pl ++ c4 ++ rest)).drop (pl.length + 2)).drop 4 := by
      rw [List.drop_drop]
    rw [h4, hdropS, ← hc4, List.drop_left]
  rw [deserialize_main _ pl.length (by omega) h0 h1 (by omega) h255, htake, htake4, hdropE]

/-- The four checksum bytes determine the wrapped sum. -/
theorem beBytes32_inj (a b : Nat) (ha : a < 2 ^ 32) (hb : b < 2 ^ 32)
    (h : beBytes32 a = beBytes32 b) : a = b := by
  simp only [beBytes32, List.cons.injEq, and_true] at h
  rw [Nat.mod_eq_of_lt ha, Nat.mod_eq_of_lt hb] at h
  obtain ⟨h3, h2, h1, h0⟩ := h
  omega

/-- Overwriting position `i` replaces the contribution of the old entry by
the new value in the sum. -/
theorem sum_set (l : List Nat) (i v : Nat) (h : i < l.length) :
    (l.set i v).sum + l.getD i 0 = l.sum + v := by
  induction l generalizing i with
  | nil => simp at h
  | cons a t ih =>
    cases i with
    | zero => simp [List.getD]; omega
    | succ n =>
      have hn : n < t.length := by simpa using h
      have := ih n hn
      simp [List.getD] at this ⊢
      omega

/-- A list of at most 255 bytes sums to at most `255 * 255`. -/
theorem sum_le_of_bytes (l : List Nat) (hb : ∀ x ∈ l, x < 256) (hl : l.length ≤ 255) :
    l.sum ≤ 255 * 255 := by
  have h := List.sum_le_card_nsmul l 255 (fun x hx => by have := hb x hx; omega)
  simp only [smul_eq_mul] at h
  have : l.length * 255 ≤ 255 * 255 := by omega
  omega

/-- Changing one payload byte to a different byte changes the checksum. -/
theorem find_checksum_set_ne (pl : List Nat) (i v : Nat)
    (hb : ∀ x ∈ pl, x < 256) (hl : pl.length ≤ 255) (hi : i < pl.length)
    (hv : v < 256) (hne : pl.getD i 0 ≠ v) :
    find_checksum (pl.set i v) ≠ find_checksum pl := by
  intro h
  have hsum := sum_set pl i v hi
  have h1 : pl.sum ≤ 255 * 255 := sum_le_of_bytes pl hb hl
  have h2 : pl.sum < 2 ^ 32 := by omega
  have h3 : (pl.set i v).sum < 2 ^ 32 := by omega
  have := beBytes32_inj _ _ h3 h2 h
  omega

/-! ### Claims -/

/-- C1: the claim says that for every valid UTF-8 text `S` and every chunk
size 1–255, `from_packet_data (to_packet_data S size)` succeeds and returns
`S`.  The code violates it: `from_packet_data` validates UTF-8 per frame,
so the two-byte character "я" (bytes 209, 143) split at chunk size 1 makes
the round trip fail with `CorruptedMessage` even though the input is valid
UTF-8 — contradicting the spec and the repository's own round-trip tests. -/
theorem C1_roundtrip_failure :
    isValidUtf8 [209, 143] = true ∧
    to_packet_data [209, 143] 1 =
      some [1, 1, 209, 0, 0, 0, 209, 1, 1, 143, 0, 0, 0, 143] ∧
    from_packet_data [1, 1, 209, 0, 0, 0, 209, 1, 1, 143, 0, 0, 0, 143] =
      some (Except.error PacketError.CorruptedMessage) :=
  ⟨rfl, rfl, rfl⟩

/-- C2: the claim says `from_packet_data` accumulates all decoded payload
bytes and validates them as UTF-8 only once, after the wire buffer is
exhausted.  The code instead validates each frame's payload separately: on
the wire buffer below both frames decode fine and the full accumulated
byte sequence `[209, 143]` is valid UTF-8, yet the code fails with
`CorruptedMessage` because the first payload `[209]` alone is not. -/
theorem C2_per_frame_validation :
    deserialize [1, 1, 209, 0, 0, 0, 209, 1, 1, 143, 0, 0, 0, 143] =
      some (Except.ok (⟨1, 1, [209], [0, 0, 0, 209]⟩, [1, 1, 143, 0, 0, 0, 143])) ∧
    deserialize [1, 1, 143, 0, 0, 0, 143] =
      some (Except.ok (⟨1, 1, [143], [0, 0, 0, 143]⟩, [])) ∧
    isValidUtf8 ([209] ++ [143]) = true ∧
    from_packet_data [1, 1, 209, 0, 0, 0, 209, 1, 1, 143, 0, 0, 0, 143] =
      some (Except.error PacketError.CorruptedMessage) :=
  ⟨rfl, rfl, rfl, rfl⟩

/-- C3 counterexample: rewriting the size byte of the serialized all-zero
five-byte frame from 5 down to 1 makes `deserialize` SUCCEED (the four
bytes after the truncated payload are all zero and match the zero
checksum), so the claim "fails with InvalidChecksum" is false as stated. -/
theorem C3_counterexample :
    from_source [0, 0, 0, 0, 0] 5 =
      some (⟨1, 5, [0, 0, 0, 0, 0], [0, 0, 0, 0]⟩, []) ∧
    (Packet.serialize ⟨1, 5, [0, 0, 0, 0, 0], [0, 0, 0, 0]⟩).set 1 1 =
      [1, 1, 0, 0, 0, 0, 0, 0, 0, 0, 0] ∧
    deserialize [1, 1, 0, 0, 0, 0, 0, 0, 0, 0, 0] =
      some (Except.ok (⟨1, 1, [0], [0, 0, 0, 0]⟩, [0, 0, 0, 0])) :=
  ⟨rfl, rfl, rfl⟩

/-- C3 (amended): a serialized frame whose size byte is rewritten to a
value strictly smaller than the encoded payload length still parses
structurally: `deserialize` either fails with `InvalidChecksum` or (when
the four bytes following the truncated payload happen to equal its
checksum) succeeds; it never fails with `InvalidPacket` or any other
error. -/
theorem C3_truncated_size (source : List Nat) (size : Nat)
    (h1 : 1 ≤ size) (h255 : size ≤ 255) (p : Packet) (rem : List Nat)
    (hp : from_source source size = some (p, rem)) (s' : Nat) (hs' : s' < p.size) :
    deserialize (p.serialize.set 1 s') = some (Except.error PacketError.InvalidChecksum) ∨
    ∃ pr, deserialize (p.serialize.set 1 s') = some (Except.ok pr) := by
  rw [from_source_eq source size (by omega) h255] at hp
  simp only [Option.some.injEq, Prod.mk.injEq] at hp
  obtain ⟨hp1, hp2⟩ := hp
  subst hp1
  simp only at hs'
  have hm : min size source.length = (source.take size).length := by
    simp [List.length_take]
  rw [hm] at hs'
  have hpl255 : (source.take size).length ≤ 255 := by
    simp only [List.length_take]
    omega
  have hser : (Packet.serialize
        ⟨1, min size source.length, source.take size,
          find_checksum (source.take size)⟩).set 1 s'
      = 1 :: s' :: (source.take size ++ find_checksum (source.take size)) := by
    simp [Packet.serialize]
  rw [hser]
  have hlt : (source.take size ++ find_checksum (source.take size)).length
      = (source.take size).length + 4 := by
    simp [length_find_checksum]
  have hsplit : source.take size ++ find_checksum (source.take size)
      = (source.take size ++ find_checksum (source.take size)).take s'
        ++ (((source.take size ++ find_checksum (source.take size)).drop s').take 4
          ++ ((source.take size ++ find_checksum (source.take size)).drop s').drop 4) := by
    rw [List.take_append_drop, List.take_append_drop]
  have hlen1 : ((source.take size ++ find_checksum (source.take size)).take s').length
      = s' := by
    simp only [List.length_take]
    omega
  have hlen4 : (((source.take size ++ find_checksum (source.take size)).drop s').take 4).length
      = 4 := by
    simp only [List.length_take, List.length_drop]
    omega
  have hfr := deserialize_frame
    ((source.take size ++ find_checksum (source.take size)).take s')
    (((source.take size ++ find_checksum (source.take size)).drop s').take 4)
    (((source.take size ++ find_checksum (source.take size)).drop s').drop 4)
    (by omega) hlen4
  rw [hlen1] at hfr
  rw [show (1 : Nat) :: s' :: (source.take size ++ find_checksum (source.take size))
      = 1 :: s' :: ((source.take size ++ find_checksum (source.take size)).take s'
        ++ ((source.take size ++ find_checksum (source.take size)).drop s').take 4
        ++ ((source.take size ++ find_checksum (source.take size)).drop s').drop 4)
    from by rw [List.append_assoc, ← hsplit]]
  rw [hfr]
  by_cases hck : find_checksum ((source.take size ++ find_checksum (source.take size)).take s')
      = ((source.take size ++ find_checksum (source.take size)).drop s').take 4
  · right
    rw [if_pos hck]
    exact ⟨_, rfl⟩
  · left
    rw [if_neg hck]

/-- C4: for every source buffer and chunk size 1–255, deserializing the
serialization of the packet built by `from_source` succeeds, the decoded
payload equals the original payload, and the remainder is empty. -/
theorem C4_decode_idempotence (source : List Nat) (size : Nat)
    (h1 : 1 ≤ size) (h255 : size ≤ 255) (p : Packet) (rem : List Nat)
    (hp : from_source source size = some (p, rem)) :
    ∃ q, deserialize p.serialize = some (Except.ok (q, ([] : List Nat))) ∧
      q.payload = p.payload := by
  rw [from_source_eq source size (by omega) h255] at hp
  simp only [Option.some.injEq, Prod.mk.injEq] at hp
  obtain ⟨hp1, hp2⟩ := hp
  subst hp1
  refine ⟨⟨1, (source.take size).length, source.take size,
    find_checksum (source.take size)⟩, ?_, rfl⟩
  have hm : min size source.length = (source.take size).length := by
    simp [List.length_take]
  have hpl255 : (source.take size).length ≤ 255 := by
    simp only [List.length_take]
    omega
  have hser : Packet.serialize
        ⟨1, min size source.length, source.take size, find_checksum (source.take size)⟩
      = 1 :: min size source.length
          :: (source.take size ++ find_checksum (source.take size) ++ []) := by
    simp [Packet.serialize]
  rw [hser, hm, deserialize_frame _ _ _ hpl255 (length_find_checksum _), if_pos rfl]

/-- C6: `from_source` with chunk size zero panics (modelled by `none`) for
every source buffer, while every chunk size in the `u8` range 1–255 yields
a packet–remainder pair without panicking. -/
theorem C6_zero_chunk_panics (source : List Nat) (size : Nat)
    (h1 : 1 ≤ size) (h255 : size ≤ 255) :
    from_source source 0 = none ∧
    ∃ p rem, from_source source size = some (p, rem) := by
  constructor
  · rfl
  · exact ⟨_, _, from_source_eq source size (by omega) h255⟩

/-- C5: `deserialize` checks its input in order: under six bytes gives
`InvalidPacket`; then a version byte other than 1 gives
`UnknownProtocolVersion` before any size or checksum validation; then a
size byte above `length - 6` gives `InvalidPacket`; then a stored checksum
differing from the one computed over the declared payload gives
`InvalidChecksum`; otherwise it succeeds with the remainder starting at
offset `size + 6`. -/
theorem C5_check_order (bytes : List Nat) (hb : ∀ b ∈ bytes, b < 256) :
    (bytes.length < 6 → deserialize bytes = some (Except.error PacketError.InvalidPacket)) ∧
    (∀ b0, 6 ≤ bytes.length → bytes.get? 0 = some b0 → b0 ≠ 1 →
      deserialize bytes = some (Except.error PacketError.UnknownProtocolVersion)) ∧
    (∀ s, 6 ≤ bytes.length → bytes.get? 0 = some 1 → bytes.get? 1 = some s →
      bytes.length - 6 < s →
      deserialize bytes = some (Except.error PacketError.InvalidPacket)) ∧
    (∀ s, 6 ≤ bytes.length → bytes.get? 0 = some 1 → bytes.get? 1 = some s →
      s ≤ bytes.length - 6 →
      find_checksum ((bytes.drop 2).take s) ≠ (bytes.drop (s + 2)).take 4 →
      deserialize bytes = some (Except.error PacketError.InvalidChecksum)) ∧
    (∀ s, 6 ≤ bytes.length → bytes.get? 0 = some 1 → bytes.get? 1 = some s →
      s ≤ bytes.length - 6 →
      find_checksum ((bytes.drop 2).take s) = (bytes.drop (s + 2)).take 4 →
      ∃ q, deserialize bytes = some (Except.ok (q, bytes.drop (s + 6)))) := by
  refine ⟨fun h => deserialize_short bytes h,
    fun b0 h6 h0 hb0 => deserialize_bad_version bytes b0 h6 h0 hb0,
    fun s h6 h0 h1 hs => deserialize_oversize bytes s h6 h0 h1 hs,
    fun s h6 h0 h1 hs hck => ?_, fun s h6 h0 h1 hs hck => ?_⟩
  all_goals
    have h255 : s ≤ 255 := by
      have hlt : 1 < bytes.length := by omega
      have h1' := h1
      rw [List.get?_eq_get hlt] at h1'
      have hv := Option.some.inj h1'
      have hmem : s ∈ bytes := hv ▸ List.get_mem bytes 1 hlt
      have := hb s hmem
      omega
  · rw [deserialize_main bytes s h6 h0 h1 hs h255, if_neg hck]
  · exact ⟨_, by rw [deserialize_main bytes s h6 h0 h1 hs h255, if_pos hck]⟩

/-- C7: flipping any single payload byte of a serialized `from_source`
packet to a different byte value makes `deserialize` fail with
`InvalidChecksum` (payload position `i` sits at offset `i + 2` of the
frame). -/
theorem C7_tamper_detection (source : List Nat) (hsrc : ∀ b ∈ source, b < 256)
    (size : Nat) (h1 : 1 ≤ size) (h255 : size ≤ 255) (p : Packet) (rem : List Nat)
    (hp : from_source source size = some (p, rem)) (i : Nat) (hi : i < p.payload.length)
    (v : Nat) (hv : v < 256) (hne : p.payload.getD i 0 ≠ v) :
    deserialize (p.serialize.set (i + 2) v) =
      some (Except.error PacketError.InvalidChecksum) := by
  rw [from_source_eq source size (by omega) h255] at hp
  simp only [Option.some.injEq, Prod.mk.injEq] at hp
  obtain ⟨hp1, hp2⟩ := hp
  subst hp1
  simp only at hi hne
  have hm : min size source.length = (source.take size).length := by
    simp [List.length_take]
  have hpl255 : (source.take size).length ≤ 255 := by
    simp only [List.length_take]
    omega
  have hplb : ∀ x ∈ source.take size, x < 256 :=
    fun x hx => hsrc x (List.take_subset size source hx)
  have hser : (Packet.serialize
        ⟨1, min size source.length, source.take size,
          find_checksum (source.take size)⟩).set (i + 2) v
      = 1 :: min size source.length
          :: (((source.take size) ++ find_checksum (source.take size)).set i v) := by
    simp only [Packet.serialize, List.cons_append, List.nil_append]
    rw [show i + 2 = i + 1 + 1 from rfl, List.set_cons_succ, List.set_cons_succ]
  have hsetapp : ((source.take size) ++ find_checksum (source.take size)).set i v
      = (source.take size).set i v ++ find_checksum (source.take size) :=
    List.set_append_left _ _ hi
  have hlenset : ((source.take size).set i v).length = (source.take size).length :=
    List.length_set _ _ _
  have hckne : find_checksum ((source.take size).set i v)
      ≠ find_checksum (source.take size) :=
    find_checksum_set_ne (source.take size) i v hplb hpl255 hi hv hne
  rw [hser, hm, hsetapp, ← hlenset,
    show (source.take size).set i v ++ find_checksum (source.take size)
      = (source.take size).set i v ++ find_checksum (source.take size) ++ [] from
        (List.append_nil _).symm,
    deserialize_frame _ _ _ (by omega) (length_find_checksum _), if_neg hckne]

/-- C8: a packet built by `from_source` serializes to exactly the version
byte, the size byte, the payload, and the four big-endian bytes of the
wrapping 32-bit payload-byte sum, for a total length of `6 + size`; in
particular `from_source b"rbcd" 3` serializes to
`[1, 3, 114, 98, 99, 0, 0, 1, 55]`. -/
theorem C8_serialize_layout (source : List Nat) (size : Nat)
    (h1 : 1 ≤ size) (h255 : size ≤ 255) (p : Packet) (rem : List Nat)
    (hp : from_source source size = some (p, rem)) :
    (p.serialize = [p.version, p.size] ++ p.payload ++ find_checksum p.payload ∧
      p.serialize.length = 6 + p.size ∧ p.version = 1 ∧ p.size = p.payload.length) ∧
    from_source [114, 98, 99, 100] 3 =
      some (⟨1, 3, [114, 98, 99], [0, 0, 1, 55]⟩, [100]) ∧
    Packet.serialize ⟨1, 3, [114, 98, 99], [0, 0, 1, 55]⟩ =
      [1, 3, 114, 98, 99, 0, 0, 1, 55] := by
  rw [from_source_eq source size (by omega) h255] at hp
  simp only [Option.some.injEq, Prod.mk.injEq] at hp
  obtain ⟨hp1, hp2⟩ := hp
  subst hp1
  refine ⟨⟨rfl, ?_, rfl, ?_⟩, rfl, rfl⟩
  · simp [Packet.serialize, length_find_checksum, List.length_take]
    omega
  · simp [List.length_take]

/-- C10: `deserialize` is total on arbitrary byte input: it never panics
(the result is never `none`), returning `Ok` or a `PacketError`. -/
theorem C10_deserialize_total (bytes : List Nat) (hb : ∀ b ∈ bytes, b < 256) :
    ∃ r, deserialize bytes = some r := by
  by_cases h6 : bytes.length < 6
  · exact ⟨_, deserialize_short bytes h6⟩
  push_neg at h6
  have hlt0 : 0 < bytes.length := by omega
  have hlt1 : 1 < bytes.length := by omega
  have h0 : bytes.get? 0 = some (bytes.get ⟨0, hlt0⟩) := List.get?_eq_get hlt0
  have h1 : bytes.get? 1 = some (bytes.get ⟨1, hlt1⟩) := List.get?_eq_get hlt1
  by_cases hb0 : bytes.get ⟨0, hlt0⟩ = 1
  · rw [hb0] at h0
    have h255 : bytes.get ⟨1, hlt1⟩ ≤ 255 := by
      have := hb _ (List.get_mem bytes 1 hlt1)
      omega
    by_cases hs : bytes.length - 6 < bytes.get ⟨1, hlt1⟩
    · exact ⟨_, deserialize_oversize bytes _ h6 h0 h1 hs⟩
    · push_neg at hs
      by_cases hck : find_checksum ((bytes.drop 2).take (bytes.get ⟨1, hlt1⟩))
          = (bytes.drop (bytes.get ⟨1, hlt1⟩ + 2)).take 4
      · exact ⟨_, by rw [deserialize_main bytes _ h6 h0 h1 hs h255, if_pos hck]⟩
      · exact ⟨_, by rw [deserialize_main bytes _ h6 h0 h1 hs h255, if_neg hck]⟩
  · exact ⟨_, deserialize_bad_version bytes _ h6 h0 hb0⟩

/-- With fuel at least the remaining byte count and a chunk size 1–255,
draining the iterator succeeds and the yielded payloads concatenate back
to the source buffer. -/
theorem collectPackets_spec (size : Nat) (h1 : 1 ≤ size) (h255 : size ≤ 255) :
    ∀ fuel src, src.length ≤ fuel →
      ∃ ps, collectPackets fuel ⟨size, src⟩ = some ps ∧
        (ps.map Packet.payload).flatten = src := by
  intro fuel
  induction fuel with
  | zero =>
    intro src hsrc
    have hnil : src = [] := List.eq_nil_of_length_eq_zero (by omega)
    subst hnil
    exact ⟨[], rfl, rfl⟩
  | succ f ih =>
    intro src hsrc
    by_cases hnil : src = []
    · subst hnil
      exact ⟨[], rfl, rfl⟩
    · have hpos : 0 < src.length := List.length_pos.mpr hnil
      have hnext : PacketSerializer.next ⟨size, src⟩
          = some (some (⟨1, min size src.length, src.take size,
              find_checksum (src.take size)⟩, ⟨size, src.drop size⟩)) := by
        simp only [PacketSerializer.next]
        rw [if_neg (by omega), from_source_eq src size (by omega) h255]
      obtain ⟨ps, hps, hflat⟩ := ih (src.drop size) (by simp [List.length_drop]; omega)
      refine ⟨⟨1, min size src.length, src.take size,
        find_checksum (src.take size)⟩ :: ps, ?_, ?_⟩
      · rw [collectPackets, hnext]
        simp [hps]
      · simp only [List.map_cons, List.flatten_cons, hflat]
        exact List.take_append_drop size src

/-- C9: for every source buffer and chunk size 1–255, draining the
`PacketSerializer` iterator (with fuel equal to the byte count, which is
always enough) yields finitely many packets whose payloads concatenate
back to the source buffer exactly, and a `next` step returns `None`
exactly when the remaining unconsumed bytes are empty. -/
theorem C9_chunking (source : List Nat) (size : Nat)
    (h1 : 1 ≤ size) (h255 : size ≤ 255) :
    (∃ ps, collectPackets source.length (to_packets source size) = some ps ∧
      (ps.map Packet.payload).flatten = source) ∧
    (∀ s : PacketSerializer, s.packet_size = size →
      (s.next = some none ↔ s.remaining_bytes = [])) := by
  constructor
  · exact collectPackets_spec size h1 h255 source.length source le_rfl
  · intro s hs
    constructor
    · intro h
      by_contra hne
      have hpos : 0 < s.remaining_bytes.length := List.length_pos.mpr hne
      have hnext : s.next = some (some (⟨1, min size s.remaining_bytes.length,
          s.remaining_bytes.take size, find_checksum (s.remaining_bytes.take size)⟩,
          ⟨size, s.remaining_bytes.drop size⟩)) := by
        simp only [PacketSerializer.next, hs]
        rw [if_neg (by omega), from_source_eq _ size (by omega) h255]
      rw [hnext] at h
      simp at h
    · intro h
      simp [PacketSerializer.next, h]

/-! ### Witnesses -/

/-- Witness for C3 at the rewritten all-zero frame. -/
theorem C3_witness :
    deserialize ((Packet.serialize ⟨1, 5, [0, 0, 0, 0, 0], [0, 0, 0, 0]⟩).set 1 1) =
      some (Except.error PacketError.InvalidChecksum) ∨
    ∃ pr, deserialize ((Packet.serialize ⟨1, 5, [0, 0, 0, 0, 0], [0, 0, 0, 0]⟩).set 1 1) =
      some (Except.ok pr) :=
  C3_truncated_size [0, 0, 0, 0, 0] 5 (by decide) (by decide)
    ⟨1, 5, [0, 0, 0, 0, 0], [0, 0, 0, 0]⟩ [] rfl 1 (by decide)

/-- Witness for C4 on the buffer `[104, 105, 106]` with chunk size 2. -/
theorem C4_witness :
    ∃ q, deserialize (Packet.serialize ⟨1, 2, [104, 105], [0, 0, 0, 209]⟩) =
        some (Except.ok (q, ([] : List Nat))) ∧
      q.payload = (⟨1, 2, [104, 105], [0, 0, 0, 209]⟩ : Packet).payload :=
  C4_decode_idempotence [104, 105, 106] 2 (by decide) (by decide)
    ⟨1, 2, [104, 105], [0, 0, 0, 209]⟩ [106] rfl

/-- Witness for C5: the success branch on a well-formed one-byte frame. -/
theorem C5_witness :
    ∃ q, deserialize [1, 1, 65, 0, 0, 0, 65] =
      some (Except.ok (q, ([1, 1, 65, 0, 0, 0, 65] : List Nat).drop (1 + 6))) :=
  (C5_check_order [1, 1, 65, 0, 0, 0, 65] (by decide)).2.2.2.2 1 (by decide) rfl rfl
    (by decide) (by decide)

/-- Witness for C6 on the one-byte buffer `[104]`. -/
theorem C6_witness :
    from_source [104] 0 = none ∧ ∃ p rem, from_source [104] 3 = some (p, rem) :=
  C6_zero_chunk_panics [104] 3 (by decide) (by decide)

/-- Witness for C7: flipping payload byte 0 of the frame over `[65, 66]`
to 9. -/
theorem C7_witness :
    deserialize ((Packet.serialize ⟨1, 2, [65, 66], [0, 0, 0, 131]⟩).set (0 + 2) 9) =
      some (Except.error PacketError.InvalidChecksum) :=
  C7_tamper_detection [65, 66] (by decide) 2 (by decide) (by decide)
    ⟨1, 2, [65, 66], [0, 0, 0, 131]⟩ [] rfl 0 (by decide) 9 (by decide) (by decide)

/-- Witness for C8 on `b"rbcd"` with chunk size 3. -/
theorem C8_witness :
    ((⟨1, 3, [114, 98, 99], [0, 0, 1, 55]⟩ : Packet).serialize =
        [(⟨1, 3, [114, 98, 99], [0, 0, 1, 55]⟩ : Packet).version,
          (⟨1, 3, [114, 98, 99], [0, 0, 1, 55]⟩ : Packet).size]
          ++ (⟨1, 3, [114, 98, 99], [0, 0, 1, 55]⟩ : Packet).payload
          ++ find_checksum (⟨1, 3, [114, 98, 99], [0, 0, 1, 55]⟩ : Packet).payload ∧
      (⟨1, 3, [114, 98, 99], [0, 0, 1, 55]⟩ : Packet).serialize.length
          = 6 + (⟨1, 3, [114, 98, 99], [0, 0, 1, 55]⟩ : Packet).size ∧
      (⟨1, 3, [114, 98, 99], [0, 0, 1, 55]⟩ : Packet).version = 1 ∧
      (⟨1, 3, [114, 98, 99], [0, 0, 1, 55]⟩ : Packet).size
          = (⟨1, 3, [114, 98, 99], [0, 0, 1, 55]⟩ : Packet).payload.length) ∧
    from_source [114, 98, 99, 100] 3 =
      some (⟨1, 3, [114, 98, 99], [0, 0, 1, 55]⟩, [100]) ∧
    Packet.serialize ⟨1, 3, [114, 98, 99], [0, 0, 1, 55]⟩ =
      [1, 3, 114, 98, 99, 0, 0, 1, 55] :=
  C8_serialize_layout [114, 98, 99, 100] 3 (by decide) (by decide)
    ⟨1, 3, [114, 98, 99], [0, 0, 1, 55]⟩ [100] rfl

/-- Witness for C9 on the buffer `[104, 105, 106]` with chunk size 2. -/
theorem C9_witness :
    (∃ ps, collectPackets ([104, 105, 106] : List Nat).length
        (to_packets [104, 105, 106] 2) = some ps ∧
      (ps.map Packet.payload).flatten = [104, 105, 106]) ∧
    ((⟨2, [104]⟩ : PacketSerializer).next = some none ↔ ([104] : List Nat) = []) :=
  ⟨(C9_chunking [104, 105, 106] 2 (by decide) (by decide)).1,
    (C9_chunking [104, 105, 106] 2 (by decide) (by decide)).2 ⟨2, [104]⟩ rfl⟩

/-- Witness for C10 on the empty buffer. -/
theorem C10_witness : ∃ r, deserialize [] = some r :=
  C10_deserialize_total [] (by decide)

end Protocol
